import Mathlib

/-!
Verification of the raindrop-mapping repository's core:
collection graph construction (src/collections.js), hierarchy path / root
resolution, group-prefixed full paths, the retrying API client (src/api.js),
and the per-collection aggregation / dedup pipeline (src/raindrops.js).

JavaScript `Map`s are modelled as insertion-ordered association lists
(`List (Nat × α)`); JS `null`/`undefined` values become `Option`, and the
relevant JS falsiness checks (`!x`, `x || y`) on numbers and strings are
modelled explicitly (`0` and `""` are falsy).
-/

namespace Raindrop

/-- Lookup in a JS `Map` (`map.get(k)`): first entry with the key. -/
def jsGet : List (Nat × α) → Nat → Option α
  | [], _ => none
  | (a, v) :: m, k => if a = k then some v else jsGet m k

/-- JS `map.has(k)`. -/
def hasKey (m : List (Nat × α)) (k : Nat) : Bool :=
  (jsGet m k).isSome

/-- JS `map.set(k, v)`: updates in place if the key exists (keeping its
insertion position, as JS `Map` does), otherwise appends.  The maps built
by the source never hold a key twice, so replacing the first occurrence is
exactly `Map.set`. -/
def jsSet : List (Nat × α) → Nat → α → List (Nat × α)
  | [], k, v => [(k, v)]
  | (a, w) :: m, k, v => if a = k then (k, v) :: m else (a, w) :: jsSet m k v

/-- A collection node as stored by `buildCollectionMap`:
`{ id, title, parentId }` with `parentId: identifier | null`. -/
structure CollNode where
  id : Nat
  title : String
  parentId : Option Nat
deriving DecidableEq, Repr

/-- The collection map `id -> { id, title, parentId }`. -/
abbrev CollMap := List (Nat × CollNode)

/-- The heterogeneous parent reference a raw collection object may carry:
a bare numeric id, or a wrapped object exposing optional `$id`, `_id`, `id`
fields (src/collections.js `addCollection`). -/
inductive ParentRef where
  | num (n : Nat)
  | obj (dollarId : Option Nat) (underId : Option Nat) (plainId : Option Nat)
deriving DecidableEq, Repr

/-- A raw collection object from the API: optional `_id` and `id` fields,
a title, and an optional parent reference. -/
structure RawCol where
  uid : Option Nat
  oid : Option Nat
  title : String
  parent : Option ParentRef
deriving DecidableEq, Repr

/-- JS truthiness filter on an optional number: `0` is falsy. -/
def truthyNat : Option Nat → Option Nat
  | none => none
  | some 0 => none
  | some (n + 1) => some (n + 1)

/-- `const id = col._id || col.id` (src/collections.js line 55).
`uid` models `_id`, `oid` models `id`.  When both are falsy JS would use the
falsy value itself (0 or undefined) as the map key; we collapse that corner
to the key 0 (no claim depends on it). -/
def rawId (col : RawCol) : Nat :=
  match truthyNat col.uid with
  | some n => n
  | none => col.oid.getD 0

/-- `col.parent.$id || col.parent._id || col.parent.id || col.parent`
followed by `if (typeof parentId === 'object') parentId = null`:
for a bare number the number itself is taken; for a wrapped object the
first truthy id field wins, and if none is truthy the object itself would
be kept and then nulled by the `typeof` check. -/
def scalarParent : ParentRef → Option Nat
  | .num n => some n
  | .obj d u p =>
    match truthyNat d with
    | some x => some x
    | none =>
      match truthyNat u with
      | some x => some x
      | none => truthyNat p

/-- Parent-id extraction in `addCollection`:
`let parentId = defaultParentId; if (col.parent) { ... }` and the final
`parentId || null` normalisation.  A numeric parent reference `0` is falsy,
so the `if (col.parent)` branch is not taken for it. -/
def rawParentId (col : RawCol) (defaultParentId : Option Nat) : Option Nat :=
  let pid : Option Nat :=
    match col.parent with
    | none => defaultParentId
    | some (.num 0) => defaultParentId
    | some pr => scalarParent pr
  truthyNat pid

/-- `addCollection(col, defaultParentId)` from `buildCollectionMap`. -/
def addCollection (m : CollMap) (col : RawCol) (defaultParentId : Option Nat) : CollMap :=
  jsSet m (rawId col) ⟨rawId col, col.title, rawParentId col defaultParentId⟩

/-- `buildCollectionMap(rootCollections, childCollections)`
(src/collections.js lines 51-78): roots are added with
`addCollection(c, null)`, then children with `addCollection(c)` whose
default parent id is also `null`. -/
def buildCollectionMap (rootCollections childCollections : List RawCol) : CollMap :=
  childCollections.foldl (fun m c => addCollection m c none)
    (rootCollections.foldl (fun m c => addCollection m c none) [])

/-- The inner `getPath(id)` of `computeCollectionPaths`
(src/collections.js lines 88-105), with a fuel parameter standing for the
recursion depth: the source recursion has no cycle guard, so `none` means
the recursion did not resolve within the given depth (for a cycle, at any
depth).  The memo cache is elided: it never changes the value a query
resolves to, and a query whose uncached recursion never resolves diverges
in the source.  A missing node yields `''`; a node whose `parentId` is
falsy (`null` or `0`) or names an id absent from the map is a root. -/
def getPath (m : CollMap) : Nat → Nat → Option String
  | 0, _ => none
  | fuel + 1, id =>
    match jsGet m id with
    | none => some ""
    | some node =>
      match node.parentId with
      | none => some node.title
      | some p =>
        if p == 0 || !(hasKey m p) then some node.title
        else (getPath m fuel p).map (fun parentPath => parentPath ++ " / " ++ node.title)

/-- The inner `getRoot(id)` of `computeRootCollections`
(src/collections.js lines 123-139), fuelled like `getPath`. -/
def getRoot (m : CollMap) : Nat → Nat → Option String
  | 0, _ => none
  | fuel + 1, id =>
    match jsGet m id with
    | none => some ""
    | some node =>
      match node.parentId with
      | none => some node.title
      | some p =>
        if p == 0 || !(hasKey m p) then some node.title
        else getRoot m fuel p

/-- The inner `getRootId(id)` of `computeRootCollectionIds`
(src/collections.js lines 157-173), fuelled like `getPath`; a missing node
yields `null`. -/
def getRootId (m : CollMap) : Nat → Nat → Option (Option Nat)
  | 0, _ => none
  | fuel + 1, id =>
    match jsGet m id with
    | none => some none
    | some node =>
      match node.parentId with
      | none => some (some id)
      | some p =>
        if p == 0 || !(hasKey m p) then some (some id)
        else getRootId m fuel p

/-- `computeCollectionPaths(collectionMap)`: resolves every key of the map
(the shared memo cache is elided as pure memoization). -/
def computeCollectionPaths (m : CollMap) (fuel : Nat) : List (Nat × Option String) :=
  m.map (fun e => (e.1, getPath m fuel e.1))

/-- `computeRootCollections(collectionMap)`. -/
def computeRootCollections (m : CollMap) (fuel : Nat) : List (Nat × Option String) :=
  m.map (fun e => (e.1, getRoot m fuel e.1))

/-- `computeRootCollectionIds(collectionMap)`. -/
def computeRootCollectionIds (m : CollMap) (fuel : Nat) : List (Nat × Option (Option Nat)) :=
  m.map (fun e => (e.1, getRootId m fuel e.1))

/-- A nonempty set of ids closed under the parent step actually taken by
the resolvers: every member is present in the map and has a truthy parent
id that is again a member (and hence present).  Every node on a
parent-chain cycle lies in such a set. -/
def onCycle (m : CollMap) (S : List Nat) : Prop :=
  ∀ i ∈ S, ∃ node p, jsGet m i = some node ∧ node.parentId = some p ∧ p ≠ 0 ∧ p ∈ S

/-- `computeFullPaths(paths, rootIds, groups)` (src/collections.js lines
190-205): `const rootId = rootIds.get(id); const group = rootId ?
groups.get(rootId) : ''; if (group) ...` — a missing, `null` or `0` root id
is falsy, as is a missing or empty group title. -/
def computeFullPaths (paths : List (Nat × String)) (rootIds : List (Nat × Option Nat))
    (groups : List (Nat × String)) : List (Nat × String) :=
  paths.map (fun e =>
    let rootId : Option (Option Nat) := jsGet rootIds e.1
    let group : String :=
      match rootId with
      | some (some r) => if r == 0 then "" else (jsGet groups r).getD ""
      | _ => ""
    if group == "" then (e.1, e.2) else (e.1, group ++ " / " ++ e.2))

/-- The specification's reading of `computeFullPaths`: `fullPath` equals
`path` when the group index has no non-empty entry for the node's root id,
and `group + " / " + path` otherwise. -/
def fullPathClaim (rootIds : List (Nat × Option Nat)) (groups : List (Nat × String))
    (id : Nat) (path : String) : String :=
  match jsGet rootIds id with
  | some (some r) =>
    match jsGet groups r with
    | some g => if g == "" then path else g ++ " / " ++ path
    | none => path
  | _ => path

/-- The amended reading: additionally, a root id of `0` (falsy in JS) is
treated as missing, so such a node never receives a group prefix. -/
def fullPathAmended (rootIds : List (Nat × Option Nat)) (groups : List (Nat × String))
    (id : Nat) (path : String) : String :=
  match jsGet rootIds id with
  | some (some r) =>
    if r == 0 then path
    else
      match jsGet groups r with
      | some g => if g == "" then path else g ++ " / " ++ path
      | none => path
  | _ => path

/-- The configuration fields the client reads (src/config.js):
`maxRetries = 3`, `retryDelay = 1000`, `requestDelay = 200`. -/
structure Config where
  maxRetries : Nat
  retryDelay : Nat
  requestDelay : Nat
deriving DecidableEq, Repr

/-- The source's configuration values. -/
def configDefaults : Config := ⟨3, 1000, 200⟩

/-- The outcome the network produces for one attempt: a successful payload,
or a failure carrying an HTTP status (`none` models a non-HTTP failure,
where `error.response` is undefined). -/
inductive Attempt where
  | success (payload : String)
  | fail (status : Option Nat)
deriving DecidableEq, Repr

/-- One awaited delay of the client, labelled by its role in the source:
the exponential retry backoff, the fixed 429 cooldown (`delay(5000)`), or
the post-success rate-limit pause (`delay(config.requestDelay)`). -/
inductive Wait where
  | backoff (ms : Nat)
  | cooldown (ms : Nat)
  | rate (ms : Nat)
deriving DecidableEq, Repr

/-- The errors the client can surface.  The source throws the axios error
itself; `http s` models an error with `error.response.status = s` and
`network` one without a response.  `undef` models `throw lastError` with no
attempt ever made (`maxRetries = 0`).  `retriesExhausted` is declared only
because the specification names a `RetriesExhaustedError` wrapper; the
source defines no such class and never produces this constructor. -/
inductive ApiError where
  | http (status : Nat)
  | network
  | undef
  | retriesExhausted (inner : ApiError)
deriving DecidableEq, Repr

deriving instance DecidableEq for Except

/-- The observable result of a client call: the returned payload or thrown
error, the awaited delays in order, and how many attempts were issued. -/
structure RunOut where
  result : Except ApiError String
  waits : List Wait
  attemptsMade : Nat
deriving DecidableEq, Repr

/-- The retry loop shared verbatim by `apiRequest` (src/api.js lines
29-79) and `getRaw` (lines 91-133): `remaining` counts the loop iterations
left out of `maxRetries`, `attempt` is the 1-based attempt number.  Before
every attempt but the first the loop awaits
`retryDelay * 2 ^ (attempt - 1)`; a success awaits `requestDelay` and
returns; 401 rethrows at once; 429 awaits an extra 5000ms cooldown and
retries; a status ≥ 500 retries; any other failure rethrows at once; an
exhausted budget rethrows the last error. -/
def retryGo (cfg : Config) (out : Nat → Attempt) :
    Nat → Nat → Option ApiError → RunOut
  | 0, attempt, lastError => ⟨.error (lastError.getD .undef), [], attempt - 1⟩
  | remaining + 1, attempt, _ =>
    let pre : List Wait :=
      if attempt == 1 then [] else [.backoff (cfg.retryDelay * 2 ^ (attempt - 1))]
    match out attempt with
    | .success p => ⟨.ok p, pre ++ [.rate cfg.requestDelay], attempt⟩
    | .fail none => ⟨.error .network, pre, attempt⟩
    | .fail (some s) =>
      if s = 401 then ⟨.error (.http s), pre, attempt⟩
      else if s = 429 then
        let rest := retryGo cfg out remaining (attempt + 1) (some (.http s))
        ⟨rest.result, pre ++ .cooldown 5000 :: rest.waits, rest.attemptsMade⟩
      else if 500 ≤ s then
        let rest := retryGo cfg out remaining (attempt + 1) (some (.http s))
        ⟨rest.result, pre ++ rest.waits, rest.attemptsMade⟩
      else ⟨.error (.http s), pre, attempt⟩

/-- `apiRequest(method, url, options)`: the retry loop run with the full
attempt budget.  The network is abstracted as the oracle `out` giving each
attempt's outcome. -/
def apiRequest (cfg : Config) (out : Nat → Attempt) : RunOut :=
  retryGo cfg out cfg.maxRetries 1 none

/-- `getRaw(url)`: its loop body is the same retry loop, token for token,
with the request fixed to a text GET (absorbed into the oracle). -/
def getRaw (cfg : Config) (out : Nat → Attempt) : RunOut :=
  retryGo cfg out cfg.maxRetries 1 none

/-- Selects the exponential-backoff waits among a run's delays. -/
def isBackoff : Wait → Bool
  | .backoff _ => true
  | _ => false

/-- Number of backoff waits a run performed. -/
def backoffCount (ws : List Wait) : Nat :=
  (ws.filter isBackoff).length

/-- An attempt outcome the loop retries on: a 429 or any status ≥ 500. -/
def retryable (a : Attempt) : Prop :=
  a = .fail (some 429) ∨ ∃ s, 500 ≤ s ∧ a = .fail (some s)

/-- A parsed bookmark row: the CSV columns `id` and `_id` that the dedup
logic reads (absent field = `none`), and the remaining columns opaquely. -/
structure Row where
  id : Option String
  uid : Option String
  rest : String
deriving DecidableEq, Repr

/-- JS truthiness filter on an optional string: `""` is falsy. -/
def truthyStr : Option String → Option String
  | none => none
  | some s => if s == "" then none else some s

/-- `const raindropId = raindrop.id || raindrop._id` (src/raindrops.js
line 139), as the dedup key: `none` when the whole expression is falsy
(`uid` models `_id`). -/
def raindropKey (r : Row) : Option String :=
  match truthyStr r.id with
  | some s => some s
  | none => truthyStr r.uid

/-- A bookmark row with the injected collection metadata
(`{...row, collection_id, collection_title, full_path, root_collection,
group}`).  `full_path` and `root_collection` are `Option` because the JS
map lookups can yield `undefined`. -/
structure Tagged where
  row : Row
  collectionId : Nat
  collectionTitle : String
  fullPath : Option String
  rootCollection : Option String
  group : String
deriving DecidableEq, Repr

/-- The metadata tagging `rows.map((row) => ({...row, ...}))`. -/
def tagRow (collectionId : Nat) (collectionTitle : String) (fullPath : Option String)
    (rootCollection : Option String) (group : String) (r : Row) : Tagged :=
  ⟨r, collectionId, collectionTitle, fullPath, rootCollection, group⟩

/-- What one collection's CSV fetch-and-parse produces, at the interface
`fetchCollectionRaindrops` consumes (CSV transport and parsing are
external collaborators): a parsed body, an empty/whitespace body, a thrown
404, or any other thrown error. -/
inductive FetchOutcome where
  | body (rows : List Row)
  | emptyBody
  | http404
  | failure (msg : String)
deriving DecidableEq, Repr

/-- `fetchCollectionRaindrops` (src/raindrops.js lines 71-105): an empty
body yields `[]`; a parsed body is tagged with the collection metadata; a
caught 404 yields `[]`; any other error is rethrown. -/
def fetchCollectionRaindrops (oracle : Nat → FetchOutcome) (collectionId : Nat)
    (collectionTitle : String) (fullPath : Option String) (rootCollection : Option String)
    (group : String) : Except String (List Tagged) :=
  match oracle collectionId with
  | .body rows => .ok (rows.map (tagRow collectionId collectionTitle fullPath rootCollection group))
  | .emptyBody => .ok []
  | .http404 => .ok []
  | .failure e => .error e

/-- The inner dedup loop of `fetchAllRaindrops` (src/raindrops.js lines
138-148) over one collection's rows: a truthy key already seen is skipped,
a fresh truthy key is recorded, a falsy key is never recorded.  Returns the
rows pushed and the updated seen set. -/
def processRows : List Tagged → List String → List Tagged × List String
  | [], seen => ([], seen)
  | t :: ts, seen =>
    match raindropKey t.row with
    | some s =>
      if seen.contains s then processRows ts seen
      else
        let st := processRows ts (s :: seen)
        (t :: st.1, st.2)
    | none =>
      let st := processRows ts seen
      (t :: st.1, st.2)

/-- The per-collection loop of `fetchAllRaindrops` (src/raindrops.js lines
125-156): for each map entry, look up the full path, root and group
(`groups.get(id) || ''`), fetch and tag the collection's rows, dedup them
into the accumulator, and on a thrown error log and continue. -/
def fetchAllGo (oracle : Nat → FetchOutcome) (fullPaths : List (Nat × String))
    (roots : List (Nat × String)) (groups : List (Nat × String)) :
    CollMap → List String → List Tagged
  | [], _ => []
  | (id, node) :: restCols, seen =>
    match fetchCollectionRaindrops oracle id node.title (jsGet fullPaths id)
        (jsGet roots id) ((jsGet groups id).getD "") with
    | .ok raindrops =>
      let st := processRows raindrops seen
      st.1 ++ fetchAllGo oracle fullPaths roots groups restCols st.2
    | .error _ => fetchAllGo oracle fullPaths roots groups restCols seen

/-- `fetchAllRaindrops(collectionMap, fullPaths, roots, groups)`
(src/raindrops.js lines 115-160), starting from an empty seen set. -/
def fetchAllRaindrops (oracle : Nat → FetchOutcome) (collectionMap : CollMap)
    (fullPaths roots groups : List (Nat × String)) : List Tagged :=
  fetchAllGo oracle fullPaths roots groups collectionMap []

/-- The stream of tagged records the aggregation loop encounters, in
processing order, before any deduplication: each successfully fetched
collection contributes its tagged rows, a failed one contributes nothing. -/
def collectionStream (oracle : Nat → FetchOutcome) (fullPaths : List (Nat × String))
    (roots : List (Nat × String)) (groups : List (Nat × String)) : CollMap → List Tagged
  | [] => []
  | (id, node) :: restCols =>
    (match fetchCollectionRaindrops oracle id node.title (jsGet fullPaths id)
        (jsGet roots id) ((jsGet groups id).getD "") with
     | .ok raindrops => raindrops
     | .error _ => []) ++ collectionStream oracle fullPaths roots groups restCols

/-- First-occurrence dedup of a record stream against a seen set: the
functional core of the aggregation loop. -/
def dedupList : List Tagged → List String → List Tagged
  | [], _ => []
  | t :: ts, seen =>
    match raindropKey t.row with
    | some s =>
      if seen.contains s then dedupList ts seen
      else t :: dedupList ts (s :: seen)
    | none => t :: dedupList ts seen

/-- The seen set after deduplicating a record stream. -/
def seenAfter : List Tagged → List String → List String
  | [], seen => seen
  | t :: ts, seen =>
    match raindropKey t.row with
    | some s =>
      if seen.contains s then seenAfter ts seen
      else seenAfter ts (s :: seen)
    | none => seenAfter ts seen

/-- A two-node collection map whose parent references form a cycle. -/
def cycleMap : CollMap := [(1, ⟨1, "A", some 2⟩), (2, ⟨2, "B", some 1⟩)]

/-- A map with a single orphaned node: its parent id 99 is absent. -/
def orphanMap : CollMap := [(7, ⟨7, "Lonely", some 99⟩)]

/-- A raw root collection object that does supply a parent reference. -/
def rootWithParent : RawCol := ⟨some 1, none, "A", some (.num 5)⟩

/-- A raw root collection object with no parent reference. -/
def plainRoot : RawCol := ⟨some 1, none, "A", none⟩

/-- A second raw root and a raw child, with distinct ids. -/
def plainRootB : RawCol := ⟨some 2, none, "B", none⟩

/-- A raw child whose parent is the bare id 1. -/
def childOfA : RawCol := ⟨some 3, none, "C", some (.num 1)⟩

/-- An attempt oracle failing with 500 twice, then succeeding. -/
def outFFS : Nat → Attempt :=
  fun n => if n = 1 then .fail (some 500) else if n = 2 then .fail (some 500)
    else .success "payload"

/-- An attempt oracle failing with 500 on every attempt. -/
def outAll500 : Nat → Attempt := fun _ => .fail (some 500)

/-- An attempt oracle failing with 500, then with 401. -/
def out401at2 : Nat → Attempt :=
  fun n => if n = 1 then .fail (some 500) else .fail (some 401)

/-- A bookmark row with id `x`, as exported by a first collection. -/
def rowX : Row := ⟨some "x", none, "first copy"⟩

/-- A row with the same id `x`, as exported by a second collection. -/
def rowXdup : Row := ⟨some "x", none, "second copy"⟩

/-- A row with a different id. -/
def rowY : Row := ⟨some "y", none, "other"⟩

/-- A row with no identifier at all. -/
def rowAnon : Row := ⟨none, none, "anonymous"⟩

/-- A two-collection map for the aggregation examples. -/
def aggMap : CollMap := [(1, ⟨1, "A", none⟩), (2, ⟨2, "B", none⟩)]

/-- Full paths for `aggMap`. -/
def aggPaths : List (Nat × String) := [(1, "A"), (2, "B")]

/-- A fetch oracle under which both collections export a row with id `x`. -/
def dupOracle : Nat → FetchOutcome :=
  fun n => if n = 1 then .body [rowX] else if n = 2 then .body [rowXdup]
    else .emptyBody

/-- A fetch oracle under which collection 2 fails unrecoverably. -/
def failOracle : Nat → FetchOutcome :=
  fun n => if n = 1 then .body [rowX] else if n = 2 then .failure "boom"
    else .body [rowY]

lemma jsGet_map_keys (m : List (Nat × α)) (f : Nat → β) (k : Nat) :
    jsGet (m.map (fun e => (e.1, f e.1))) k = (jsGet m k).map (fun _ => f k) := by
  induction m with
  | nil => simp [jsGet]
  | cons e m ih =>
    obtain ⟨a, v⟩ := e
    by_cases h : a = k
    · subst h; simp [jsGet]
    · simp [jsGet, h, ih]

/-- Shared divergence lemma: on any set of ids closed under the (present,
truthy) parent step, none of the three resolvers ever resolves, at any
recursion depth. -/
lemma cycle_no_resolution (m : CollMap) (S : List Nat) (hS : onCycle m S) :
    ∀ fuel, ∀ i ∈ S,
      getPath m fuel i = none ∧ getRoot m fuel i = none ∧ getRootId m fuel i = none := by
  intro fuel
  induction fuel with
  | zero => intro i _; exact ⟨rfl, rfl, rfl⟩
  | succ n ih =>
    intro i hi
    obtain ⟨node, p, hget, hpar, hp0, hpS⟩ := hS i hi
    obtain ⟨pnode, q, hpget, -, -, -⟩ := hS p hpS
    have hk : hasKey m p = true := by simp [hasKey, hpget]
    have hcond : (p == 0 || !(hasKey m p)) = false := by
      simp [hk, Nat.beq_eq_true_eq, hp0]
    obtain ⟨ihp, ihr, ihd⟩ := ih p hpS
    refine ⟨?_, ?_, ?_⟩
    · simp [getPath, hget, hpar, hcond, ihp]
    · simp [getRoot, hget, hpar, hcond, ihr]
    · simp [getRootId, hget, hpar, hcond, ihd]

/-- C1 (corrected): on every collection graph whose parent references form
a cycle, path/root/rootId resolution for a node on the cycle never
terminates: at every recursion depth the recursion is still unresolved
(the source has no cycle guard and no `GraphCycleError`), and the
aggregate `computeCollectionPaths` / `computeRootCollections` /
`computeRootCollectionIds` entries for such a node stay unresolved too. -/
theorem cycle_resolution_diverges (m : CollMap) (S : List Nat) (hS : onCycle m S)
    (i : Nat) (hi : i ∈ S) :
    ∀ fuel,
      getPath m fuel i = none ∧ getRoot m fuel i = none ∧ getRootId m fuel i = none ∧
      jsGet (computeCollectionPaths m fuel) i = some none ∧
      jsGet (computeRootCollections m fuel) i = some none ∧
      jsGet (computeRootCollectionIds m fuel) i = some none := by
  intro fuel
  obtain ⟨node, p, hget, -, -, -⟩ := hS i hi
  obtain ⟨h1, h2, h3⟩ := cycle_no_resolution m S hS fuel i hi
  refine ⟨h1, h2, h3, ?_, ?_, ?_⟩
  · simp [computeCollectionPaths, jsGet_map_keys, hget, h1]
  · simp [computeRootCollections, jsGet_map_keys, hget, h2]
  · simp [computeRootCollectionIds, jsGet_map_keys, hget, h3]

/-- C1 counterexample: on the concrete two-node cycle, no recursion depth
suffices for any of the three resolvers at node 1 (or node 2) — the claim
that resolution terminates with a `GraphCycleError` is false: the source
recursion simply never resolves. -/
theorem cycle_graphCycleError_cex :
    ¬ (∃ fuel, (getPath cycleMap fuel 1).isSome) ∧
    ¬ (∃ fuel, (getRoot cycleMap fuel 1).isSome) ∧
    ¬ (∃ fuel, (getRootId cycleMap fuel 1).isSome) ∧
    ¬ (∃ fuel, (getPath cycleMap fuel 2).isSome) := by
  have hS : onCycle cycleMap [1, 2] := by
    intro i hi
    simp only [List.mem_cons, List.not_mem_nil, or_false] at hi
    rcases hi with h | h
    · subst h; exact ⟨⟨1, "A", some 2⟩, 2, rfl, rfl, by simp, by simp⟩
    · subst h; exact ⟨⟨2, "B", some 1⟩, 1, rfl, rfl, by simp, by simp⟩
  refine ⟨?_, ?_, ?_, ?_⟩ <;> rintro ⟨fuel, hf⟩
  · rw [(cycle_no_resolution cycleMap [1, 2] hS fuel 1 (by simp)).1] at hf; cases hf
  · rw [(cycle_no_resolution cycleMap [1, 2] hS fuel 1 (by simp)).2.1] at hf; cases hf
  · rw [(cycle_no_resolution cycleMap [1, 2] hS fuel 1 (by simp)).2.2] at hf; cases hf
  · rw [(cycle_no_resolution cycleMap [1, 2] hS fuel 2 (by simp)).1] at hf; cases hf

/-- C1 witness: the divergence theorem applied to the concrete two-node
cycle at depth 5. -/
theorem cycle_resolution_diverges_witness :
    onCycle cycleMap [1, 2] ∧
    getPath cycleMap 5 1 = none ∧ getRoot cycleMap 5 1 = none ∧
    getRootId cycleMap 5 1 = none ∧
    jsGet (computeCollectionPaths cycleMap 5) 1 = some none := by
  have hS : onCycle cycleMap [1, 2] := by
    intro i hi
    simp only [List.mem_cons, List.not_mem_nil, or_false] at hi
    rcases hi with h | h
    · subst h; exact ⟨⟨1, "A", some 2⟩, 2, rfl, rfl, by simp, by simp⟩
    · subst h; exact ⟨⟨2, "B", some 1⟩, 1, rfl, rfl, by simp, by simp⟩
  obtain ⟨h1, h2, h3, h4, -, -⟩ :=
    cycle_resolution_diverges cycleMap [1, 2] hS 1 (by simp) 5
  exact ⟨hS, h1, h2, h3, h4⟩

/-- C7: a node whose `parentId` is `null`, or references an id absent from
the collection map, resolves as a root at any positive recursion depth:
its path is its own title and its root title is its own title. -/
theorem orphan_is_root (m : CollMap) (id : Nat) (node : CollNode)
    (hget : jsGet m id = some node)
    (hroot : node.parentId = none ∨ ∃ p, node.parentId = some p ∧ jsGet m p = none) :
    ∀ fuel, getPath m (fuel + 1) id = some node.title ∧
      getRoot m (fuel + 1) id = some node.title := by
  intro fuel
  rcases hroot with h | ⟨p, hp, habs⟩
  · constructor <;> simp [getPath, getRoot, hget, h]
  · have hk : hasKey m p = false := by simp [hasKey, habs]
    constructor <;> simp [getPath, getRoot, hget, hp, hk]

/-- C7 witness: the orphan node (parent id 99 absent) resolves to itself. -/
theorem orphan_is_root_witness :
    jsGet orphanMap 7 = some ⟨7, "Lonely", some 99⟩ ∧
    getPath orphanMap 3 7 = some "Lonely" ∧ getRoot orphanMap 3 7 = some "Lonely" := by
  obtain ⟨h1, h2⟩ :=
    orphan_is_root orphanMap 7 ⟨7, "Lonely", some 99⟩ rfl (Or.inr ⟨99, rfl, rfl⟩) 2
  exact ⟨rfl, h1, h2⟩

/-- C8 (corrected): `computeFullPaths` composes exactly as the amended
reading says — `path` when there is no non-empty group entry for the
node's root id, `group + " / " + path` otherwise — with the proviso that a
root id of `0` is falsy in JS and therefore treated as missing. -/
theorem fullPath_group_compose (paths : List (Nat × String))
    (rootIds : List (Nat × Option Nat)) (groups : List (Nat × String)) :
    computeFullPaths paths rootIds groups =
      paths.map (fun e => (e.1, fullPathAmended rootIds groups e.1 e.2)) := by
  unfold computeFullPaths
  apply List.map_congr_left
  intro e _
  rcases hjr : jsGet rootIds e.1 with - | ro
  · simp [fullPathAmended, hjr]
  · rcases ro with - | r
    · simp [fullPathAmended, hjr]
    · by_cases h0 : r = 0
      · subst h0; simp [fullPathAmended, hjr]
      · have h0b : (r == 0) = false := by simp [h0]
        rcases hg : jsGet groups r with - | g
        · simp [fullPathAmended, hjr, h0b, hg]
        · by_cases hge : g = ""
          · subst hge; simp [fullPathAmended, hjr, h0b, hg]
          · have hgb : (g == "") = false := by simp [hge]
            simp [fullPathAmended, hjr, h0b, hg, hgb]

/-- C8 counterexample: for a node whose root id is `0` and a non-empty
group entry for `0`, the source yields the bare path (the JS truthiness
check `rootId ? ... : ''` treats `0` as absent) while the claim's reading
demands the group prefix. -/
theorem fullPath_zero_rootId_cex :
    computeFullPaths [(5, "T")] [(5, some 0)] [(0, "G")] = [(5, "T")] ∧
    [(5, "T")].map
        (fun e => (e.1, fullPathClaim [(5, some 0)] [(0, "G")] e.1 e.2)) =
      [(5, "G / T")] ∧
    computeFullPaths [(5, "T")] [(5, some 0)] [(0, "G")] ≠
      [(5, "T")].map
        (fun e => (e.1, fullPathClaim [(5, some 0)] [(0, "G")] e.1 e.2)) := by
  refine ⟨rfl, rfl, ?_⟩
  decide

lemma jsGet_jsSet_self (m : List (Nat × α)) (k : Nat) (v : α) :
    jsGet (jsSet m k v) k = some v := by
  induction m with
  | nil => simp [jsSet, jsGet]
  | cons e l ih =>
    obtain ⟨a, b⟩ := e
    by_cases ha : a = k
    · simp [jsSet, jsGet, ha]
    · simp [jsSet, jsGet, ha, ih]

lemma jsGet_jsSet_ne (m : List (Nat × α)) (k k' : Nat) (v : α) (h : k' ≠ k) :
    jsGet (jsSet m k' v) k = jsGet m k := by
  induction m with
  | nil => simp [jsSet, jsGet, h]
  | cons e l ih =>
    obtain ⟨a, b⟩ := e
    by_cases ha : a = k'
    · subst ha
      have hak : a ≠ k := fun hc => h (hc ▸ rfl)
      simp [jsSet, jsGet, h, hak]
    · simp [jsSet, jsGet, ha, ih]

lemma jsGet_addFold_ne (l : List RawCol) (m : CollMap) (k : Nat)
    (h : ∀ c ∈ l, rawId c ≠ k) :
    jsGet (l.foldl (fun m c => addCollection m c none) m) k = jsGet m k := by
  induction l generalizing m with
  | nil => rfl
  | cons c l ih =>
    simp only [List.foldl_cons]
    rw [ih _ (fun d hd => h d (List.mem_cons_of_mem c hd))]
    exact jsGet_jsSet_ne m k (rawId c) _ (h c (List.mem_cons_self c l))

/-- C4 (corrected): a raw collection in the roots sequence is inserted
with `parentId = null` when it supplies no (truthy) parent reference; the
`defaultParentId = null` passed for roots is only a default, so this is
conditional on the raw object, not unconditional. -/
theorem root_insert_parent_null (l₁ l₂ children : List RawCol) (col : RawCol)
    (hpar : col.parent = none ∨ col.parent = some (.num 0))
    (h₂ : ∀ c ∈ l₂, rawId c ≠ rawId col)
    (h₃ : ∀ c ∈ children, rawId c ≠ rawId col) :
    jsGet (buildCollectionMap (l₁ ++ col :: l₂) children) (rawId col) =
      some ⟨rawId col, col.title, none⟩ := by
  have hparent : rawParentId col none = none := by
    rcases hpar with h | h <;> simp [rawParentId, h, truthyNat]
  unfold buildCollectionMap
  rw [jsGet_addFold_ne children _ _ h₃, List.foldl_append, List.foldl_cons,
    jsGet_addFold_ne l₂ _ _ h₂]
  unfold addCollection
  rw [jsGet_jsSet_self, hparent]

/-- C4 counterexample: a raw root object that carries a parent reference
(`parent = 5`) is inserted with `parentId = 5`, not `null` — the
extraction in `addCollection` overrides the root default. -/
theorem root_parent_ref_cex :
    jsGet (buildCollectionMap [rootWithParent] []) 1 = some ⟨1, "A", some 5⟩ ∧
    jsGet (buildCollectionMap [rootWithParent] []) 1 ≠ some ⟨1, "A", none⟩ := by
  refine ⟨rfl, ?_⟩
  decide

/-- C4 witness: a root with no parent reference is inserted with
`parentId = null`, and survives later non-colliding insertions. -/
theorem root_insert_parent_null_witness :
    (plainRoot.parent = none ∨ plainRoot.parent = some (.num 0)) ∧
    jsGet (buildCollectionMap [plainRoot, plainRootB] [childOfA]) (rawId plainRoot) =
      some ⟨rawId plainRoot, plainRoot.title, none⟩ := by
  refine ⟨Or.inl rfl, ?_⟩
  exact root_insert_parent_null [] [plainRootB] [childOfA] plainRoot (Or.inl rfl)
    (by decide) (by decide)

/-- C2 (corrected): two 500 failures then a success return the payload
after exactly two backoff waits — but the waits are scaled
`retryDelay × 2` and `retryDelay × 4` (the exponent uses the attempt about
to be made, not the attempt that just failed). -/
theorem retry_500_500_success (cfg : Config) (p : String) (out : Nat → Attempt)
    (h1 : out 1 = .fail (some 500)) (h2 : out 2 = .fail (some 500))
    (h3 : out 3 = .success p) (hm : 3 ≤ cfg.maxRetries) :
    (apiRequest cfg out).result = .ok p ∧
    (apiRequest cfg out).waits.filter isBackoff =
      [.backoff (cfg.retryDelay * 2), .backoff (cfg.retryDelay * 4)] := by
  obtain ⟨k, hk⟩ : ∃ k, cfg.maxRetries = k + 1 + 1 + 1 := ⟨cfg.maxRetries - 3, by omega⟩
  constructor <;>
    simp [apiRequest, hk, retryGo, h1, h2, h3, isBackoff]

/-- C2 witness: with the source's configuration (retryDelay 1000), the two
backoff waits are 2000ms and 4000ms and the payload is returned. -/
theorem retry_500_500_success_witness :
    (apiRequest configDefaults outFFS).result = .ok "payload" ∧
    (apiRequest configDefaults outFFS).waits.filter isBackoff =
      [.backoff 2000, .backoff 4000] := by
  have h := retry_500_500_success configDefaults "payload" outFFS rfl rfl rfl
    (by decide)
  simpa using h

/-- C2 counterexample: the backoff waits of the 500/500/success run are
2000ms and 4000ms, not the claimed `base, base×2` (1000ms and 2000ms). -/
theorem retry_backoff_scale_cex :
    (apiRequest configDefaults outFFS).waits.filter isBackoff =
      [.backoff 2000, .backoff 4000] ∧
    (apiRequest configDefaults outFFS).waits.filter isBackoff ≠
      [.backoff 1000, .backoff 2000] := by
  refine ⟨?_, ?_⟩ <;> decide

lemma retryGo_all500 (cfg : Config) (out : Nat → Attempt) :
    ∀ (r attempt : Nat) (le : Option ApiError), 1 ≤ attempt →
      (∀ i, attempt ≤ i → i < attempt + r → out i = .fail (some 500)) →
      (retryGo cfg out r attempt le).result =
        .error (if r = 0 then le.getD .undef else .http 500) ∧
      backoffCount (retryGo cfg out r attempt le).waits =
        r - (if attempt = 1 then 1 else 0) ∧
      (retryGo cfg out r attempt le).attemptsMade = attempt + r - 1 := by
  intro r
  induction r with
  | zero =>
    intro attempt le _ _
    refine ⟨rfl, ?_, rfl⟩
    simp [retryGo, backoffCount]
  | succ r ih =>
    intro attempt le h1 hw
    have hout : out attempt = .fail (some 500) := hw attempt le_rfl (by omega)
    have hrest := ih (attempt + 1) (some (.http 500)) (by omega)
      (fun i hi hi2 => hw i (by omega) (by omega))
    obtain ⟨hres, hcnt, hatt⟩ := hrest
    have hstep : retryGo cfg out (r + 1) attempt le =
        ⟨(retryGo cfg out r (attempt + 1) (some (.http 500))).result,
          (if attempt == 1 then ([] : List Wait)
            else [.backoff (cfg.retryDelay * 2 ^ (attempt - 1))]) ++
            (retryGo cfg out r (attempt + 1) (some (.http 500))).waits,
          (retryGo cfg out r (attempt + 1) (some (.http 500))).attemptsMade⟩ := by
      simp [retryGo, hout]
    refine ⟨?_, ?_, ?_⟩
    · rw [hstep]
      simp only [hres]
      rcases r with - | r
      · simp
      · simp
    · rw [hstep]
      have hpre : (((if attempt == 1 then ([] : List Wait)
          else [.backoff (cfg.retryDelay * 2 ^ (attempt - 1))]).filter isBackoff).length)
          = if attempt = 1 then 0 else 1 := by
        by_cases ha : attempt = 1 <;> simp [ha, isBackoff]
      have hrest2 : (((retryGo cfg out r (attempt + 1)
          (some (.http 500))).waits.filter isBackoff).length) = r := by
        rw [if_neg (by omega : ¬ attempt + 1 = 1)] at hcnt
        simpa [backoffCount] using hcnt
      simp only [backoffCount, List.filter_append, List.length_append, hpre, hrest2]
      by_cases ha : attempt = 1
      · simp [ha]
      · simp [ha]; omega
    · rw [hstep]
      show (retryGo cfg out r (attempt + 1) (some (.http 500))).attemptsMade =
        attempt + (r + 1) - 1
      rw [hatt]
      omega

/-- C3 (corrected): 500 on every attempt performs exactly
`maxRetries − 1` backoff waits, but then rethrows the last 500 error
itself — the source has no `RetriesExhaustedError` wrapper. -/
theorem retry_exhaustion_last_error (cfg : Config) (out : Nat → Attempt)
    (hm : 1 ≤ cfg.maxRetries)
    (h : ∀ i, 1 ≤ i → i ≤ cfg.maxRetries → out i = .fail (some 500)) :
    (apiRequest cfg out).result = .error (.http 500) ∧
    backoffCount (apiRequest cfg out).waits = cfg.maxRetries - 1 ∧
    (getRaw cfg out).result = .error (.http 500) ∧
    backoffCount (getRaw cfg out).waits = cfg.maxRetries - 1 := by
  have hall := retryGo_all500 cfg out cfg.maxRetries 1 none le_rfl
    (fun i hi hi2 => h i hi (by omega))
  obtain ⟨hres, hcnt, -⟩ := hall
  rw [if_neg (by omega : ¬ cfg.maxRetries = 0)] at hres
  rw [if_pos rfl] at hcnt
  exact ⟨hres, hcnt, hres, hcnt⟩

/-- C3 counterexample: with the source's configuration and 500 on every
attempt, the thrown error is the raw 500 error, not a
`RetriesExhaustedError` wrapping it (no such wrapper exists). -/
theorem retriesExhausted_wrapper_cex :
    (apiRequest configDefaults outAll500).result = .error (.http 500) ∧
    ¬ ∃ e, (apiRequest configDefaults outAll500).result =
      .error (.retriesExhausted e) := by
  refine ⟨rfl, ?_⟩
  rintro ⟨e, he⟩
  rw [show (apiRequest configDefaults outAll500).result = .error (.http 500)
    from rfl] at he
  simp at he

/-- C3 witness: the exhaustion theorem at the source's configuration. -/
theorem retry_exhaustion_last_error_witness :
    (apiRequest configDefaults outAll500).result = .error (.http 500) ∧
    backoffCount (apiRequest configDefaults outAll500).waits = 2 ∧
    (getRaw configDefaults outAll500).result = .error (.http 500) := by
  have h := retry_exhaustion_last_error configDefaults outAll500 (by decide)
    (fun i _ _ => rfl)
  exact ⟨h.1, h.2.1, h.2.2.1⟩

lemma retryGo_401 (cfg : Config) (out : Nat → Attempt) :
    ∀ j attempt (le : Option ApiError),
      (∀ i, i < j → retryable (out (attempt + i))) →
      out (attempt + j) = .fail (some 401) →
      ∀ r, j < r →
        retryGo cfg out r attempt le = retryGo cfg out (j + 1) attempt le ∧
        (retryGo cfg out r attempt le).result = .error (.http 401) ∧
        (retryGo cfg out r attempt le).attemptsMade = attempt + j := by
  intro j
  induction j with
  | zero =>
    intro attempt le _ h401 r hr
    obtain ⟨r', rfl⟩ : ∃ r', r = r' + 1 := ⟨r - 1, by omega⟩
    rw [Nat.add_zero] at h401
    have hunf : ∀ rr, retryGo cfg out (rr + 1) attempt le =
        ⟨.error (.http 401),
          (if attempt == 1 then [] else [.backoff (cfg.retryDelay * 2 ^ (attempt - 1))]),
          attempt⟩ := by
      intro rr; simp [retryGo, h401]
    rw [hunf r', hunf 0]
    exact ⟨rfl, rfl, rfl⟩
  | succ j ih =>
    intro attempt le hpre h401 r hr
    obtain ⟨r', rfl⟩ : ∃ r', r = r' + 1 := ⟨r - 1, by omega⟩
    have hr' : j < r' := by omega
    have hretry : retryable (out attempt) := by
      have h := hpre 0 (by omega)
      simpa using h
    have hpre' : ∀ i, i < j → retryable (out (attempt + 1 + i)) := by
      intro i hi
      have h := hpre (i + 1) (by omega)
      have harith : attempt + (i + 1) = attempt + 1 + i := by omega
      rwa [harith] at h
    have h401' : out (attempt + 1 + j) = .fail (some 401) := by
      have harith : attempt + 1 + j = attempt + (j + 1) := by omega
      rw [harith]; exact h401
    rcases hretry with h429 | ⟨s, hs, hfail⟩
    · have hstep : ∀ rr, retryGo cfg out (rr + 1) attempt le =
          ⟨(retryGo cfg out rr (attempt + 1) (some (.http 429))).result,
            (if attempt == 1 then [] else [.backoff (cfg.retryDelay * 2 ^ (attempt - 1))]) ++
              .cooldown 5000 :: (retryGo cfg out rr (attempt + 1) (some (.http 429))).waits,
            (retryGo cfg out rr (attempt + 1) (some (.http 429))).attemptsMade⟩ := by
        intro rr; simp [retryGo, h429]
      obtain ⟨heq, hres, hatt⟩ := ih (attempt + 1) (some (.http 429)) hpre' h401' r' hr'
      refine ⟨?_, ?_, ?_⟩
      · rw [hstep r', hstep (j + 1), heq]
      · rw [hstep r']
        exact hres
      · rw [hstep r']
        show (retryGo cfg out r' (attempt + 1) (some (.http 429))).attemptsMade =
          attempt + (j + 1)
        rw [hatt]; omega
    · have hs401 : ¬ s = 401 := by omega
      have hs429 : ¬ s = 429 := by omega
      have hstep : ∀ rr, retryGo cfg out (rr + 1) attempt le =
          ⟨(retryGo cfg out rr (attempt + 1) (some (.http s))).result,
            (if attempt == 1 then [] else [.backoff (cfg.retryDelay * 2 ^ (attempt - 1))]) ++
              (retryGo cfg out rr (attempt + 1) (some (.http s))).waits,
            (retryGo cfg out rr (attempt + 1) (some (.http s))).attemptsMade⟩ := by
        intro rr; simp [retryGo, hfail, hs401, hs429, hs]
      obtain ⟨heq, hres, hatt⟩ := ih (attempt + 1) (some (.http s)) hpre' h401' r' hr'
      refine ⟨?_, ?_, ?_⟩
      · rw [hstep r', hstep (j + 1), heq]
      · rw [hstep r']
        exact hres
      · rw [hstep r']
        show (retryGo cfg out r' (attempt + 1) (some (.http s))).attemptsMade =
          attempt + (j + 1)
        rw [hatt]; omega

/-- C5: a 401 on any attempt aborts at once — the result is the 401 error,
exactly that many attempts were issued, and the run is identical to one
whose whole budget is the failing attempt (so no waits or retries occur
after the 401, regardless of the remaining attempt budget); `getRaw`
behaves identically. -/
theorem auth401_aborts (cfg : Config) (out : Nat → Attempt) (k : Nat)
    (hk1 : 1 ≤ k) (hk : k ≤ cfg.maxRetries)
    (hpre : ∀ i, 1 ≤ i → i < k → retryable (out i))
    (h401 : out k = .fail (some 401)) :
    (apiRequest cfg out).result = .error (.http 401) ∧
    (apiRequest cfg out).attemptsMade = k ∧
    (getRaw cfg out).result = .error (.http 401) ∧
    ∀ m, k ≤ m → retryGo cfg out m 1 none = retryGo cfg out k 1 none := by
  have hbase := retryGo_401 cfg out (k - 1) 1 none
    (fun i hi => hpre (1 + i) (by omega) (by omega))
    (by
      have harith : 1 + (k - 1) = k := by omega
      rw [harith]; exact h401)
  obtain ⟨heq, hres, hatt⟩ := hbase cfg.maxRetries (by omega)
  have hk1' : k - 1 + 1 = k := by omega
  refine ⟨hres, ?_, hres, ?_⟩
  · show (retryGo cfg out cfg.maxRetries 1 none).attemptsMade = k
    rw [hatt]; omega
  · intro m hm2
    obtain ⟨heq2, -, -⟩ := hbase m (by omega)
    rwa [hk1'] at heq2

/-- C5 witness: attempt 1 fails with 500, attempt 2 with 401; the run
aborts after 2 attempts and a budget of 7 changes nothing. -/
theorem auth401_aborts_witness :
    (apiRequest configDefaults out401at2).result = .error (.http 401) ∧
    (apiRequest configDefaults out401at2).attemptsMade = 2 ∧
    retryGo configDefaults out401at2 7 1 none =
      retryGo configDefaults out401at2 2 1 none := by
  have h := auth401_aborts configDefaults out401at2 2 (by decide) (by decide)
    (fun i h1 h2 => by
      have hi : i = 1 := by omega
      subst hi
      exact Or.inr ⟨500, le_refl 500, rfl⟩)
    rfl
  exact ⟨h.1, h.2.1, h.2.2.2 7 (by omega)⟩

lemma processRows_eq (rows : List Tagged) :
    ∀ seen, processRows rows seen = (dedupList rows seen, seenAfter rows seen) := by
  induction rows with
  | nil => intro seen; rfl
  | cons t ts ih =>
    intro seen
    rcases hkey : raindropKey t.row with - | s
    · simp [processRows, dedupList, seenAfter, hkey, ih]
    · by_cases hc : s ∈ seen
      · simp [processRows, dedupList, seenAfter, hkey, hc, ih]
      · simp [processRows, dedupList, seenAfter, hkey, hc, ih]

lemma dedupList_append (a b : List Tagged) :
    ∀ seen, dedupList (a ++ b) seen = dedupList a seen ++ dedupList b (seenAfter a seen) := by
  induction a with
  | nil => intro seen; rfl
  | cons t ts ih =>
    intro seen
    rcases hkey : raindropKey t.row with - | s
    · simp [dedupList, seenAfter, hkey, ih]
    · by_cases hc : s ∈ seen
      · simp [dedupList, seenAfter, hkey, hc, ih]
      · simp [dedupList, seenAfter, hkey, hc, ih]

lemma fetchAllGo_eq_dedup (oracle : Nat → FetchOutcome)
    (fullPaths roots groups : List (Nat × String)) :
    ∀ (m : CollMap) (seen : List String),
      fetchAllGo oracle fullPaths roots groups m seen =
        dedupList (collectionStream oracle fullPaths roots groups m) seen := by
  intro m
  induction m with
  | nil => intro seen; rfl
  | cons e rest ih =>
    obtain ⟨id, node⟩ := e
    intro seen
    rcases hfe : fetchCollectionRaindrops oracle id node.title (jsGet fullPaths id)
        (jsGet roots id) ((jsGet groups id).getD "") with e | rows
    · simp [fetchAllGo, collectionStream, hfe, ih]
    · simp [fetchAllGo, collectionStream, hfe, processRows_eq, dedupList_append, ih]

lemma collectionStream_append (oracle : Nat → FetchOutcome)
    (fullPaths roots groups : List (Nat × String)) (a b : CollMap) :
    collectionStream oracle fullPaths roots groups (a ++ b) =
      collectionStream oracle fullPaths roots groups a ++
        collectionStream oracle fullPaths roots groups b := by
  induction a with
  | nil => rfl
  | cons e rest ih =>
    obtain ⟨id, node⟩ := e
    simp [collectionStream, ih]

lemma dedupList_filter_key (s : String) :
    ∀ (ts : List Tagged) (seen : List String),
      (dedupList ts seen).filter (fun t => raindropKey t.row == some s) =
        if s ∈ seen then []
        else (ts.filter (fun t => raindropKey t.row == some s)).take 1 := by
  intro ts
  induction ts with
  | nil => intro seen; by_cases hc : s ∈ seen <;> simp [dedupList, hc]
  | cons t ts ih =>
    intro seen
    rcases hkey : raindropKey t.row with - | u
    · simp [dedupList, List.filter_cons, hkey, ih]
    · by_cases hus : u = s
      · subst hus
        by_cases hc : u ∈ seen
        · simp [dedupList, List.filter_cons, hkey, hc, ih]
        · simp [dedupList, List.filter_cons, hkey, hc, ih]
      · have hsu : ¬ s = u := fun h => hus h.symm
        by_cases hc : u ∈ seen
        · simp [dedupList, List.filter_cons, hkey, hc, hus, ih]
        · simp [dedupList, List.filter_cons, hkey, hc, hus, hsu, ih]

lemma dedupList_filter_none :
    ∀ (ts : List Tagged) (seen : List String),
      (dedupList ts seen).filter (fun t => (raindropKey t.row).isNone) =
        ts.filter (fun t => (raindropKey t.row).isNone) := by
  intro ts
  induction ts with
  | nil => intro seen; rfl
  | cons t ts ih =>
    intro seen
    rcases hkey : raindropKey t.row with - | u
    · simp [dedupList, List.filter_cons, hkey, ih]
    · by_cases hc : u ∈ seen <;>
        simp [dedupList, List.filter_cons, hkey, hc, ih]

lemma fetchAllGo_skip (oracle : Nat → FetchOutcome)
    (fps rts gps : List (Nat × String)) (c : Nat) (n : CollNode)
    (h : oracle c = .http404 ∨ ∃ e, oracle c = .failure e) :
    ∀ (l₁ l₂ : CollMap) (seen : List String),
      fetchAllGo oracle fps rts gps (l₁ ++ (c, n) :: l₂) seen =
        fetchAllGo oracle fps rts gps (l₁ ++ l₂) seen := by
  intro l₁
  induction l₁ with
  | nil =>
    intro l₂ seen
    rcases h with h404 | ⟨e, herr⟩
    · simp [fetchAllGo, fetchCollectionRaindrops, h404, processRows]
    · simp [fetchAllGo, fetchCollectionRaindrops, herr]
  | cons a l₁ ih =>
    obtain ⟨id, node⟩ := a
    intro l₂ seen
    simp only [List.cons_append, fetchAllGo]
    rcases hfe : fetchCollectionRaindrops oracle id node.title (jsGet fps id)
        (jsGet rts id) ((jsGet gps id).getD "") with e | rows
    · simp [ih]
    · simp [ih]

/-- C9: a collection whose fetch ends in a 404 contributes zero records
and a collection whose fetch fails with any other error is skipped, in
both cases leaving the aggregation over the remaining collections exactly
as if the failing collection were absent — failure is tolerated per
collection, never all-or-nothing. -/
theorem per_collection_failure_tolerated (oracle : Nat → FetchOutcome)
    (fps rts gps : List (Nat × String)) (l₁ l₂ : CollMap) (c : Nat) (n : CollNode)
    (h : oracle c = .http404 ∨ ∃ e, oracle c = .failure e) :
    fetchAllRaindrops oracle (l₁ ++ (c, n) :: l₂) fps rts gps =
      fetchAllRaindrops oracle (l₁ ++ l₂) fps rts gps :=
  fetchAllGo_skip oracle fps rts gps c n h l₁ l₂ []

/-- C9 witness: collection 2 fails unrecoverably; the run equals the run
without it, so collections 1 and 3 are still aggregated. -/
theorem per_collection_failure_tolerated_witness :
    failOracle 2 = .failure "boom" ∧
    fetchAllRaindrops failOracle
        [(1, ⟨1, "A", none⟩), (2, ⟨2, "B", none⟩), (3, ⟨3, "C", none⟩)]
        aggPaths aggPaths [] =
      fetchAllRaindrops failOracle [(1, ⟨1, "A", none⟩), (3, ⟨3, "C", none⟩)]
        aggPaths aggPaths [] := by
  refine ⟨rfl, ?_⟩
  exact per_collection_failure_tolerated failOracle aggPaths aggPaths []
    [(1, ⟨1, "A", none⟩)] [(3, ⟨3, "C", none⟩)] 2 ⟨2, "B", none⟩
    (Or.inr ⟨"boom", rfl⟩)

/-- C10: a record whose identifier is falsy (no `id`, no `_id`, or empty
strings) is never deduplicated: the output contains exactly the falsy-id
records the aggregation loop encountered, in order and with multiplicity,
even when identical such records occur in several collection exports. -/
theorem falsy_id_never_deduped (oracle : Nat → FetchOutcome) (m : CollMap)
    (fps rts gps : List (Nat × String)) :
    (fetchAllRaindrops oracle m fps rts gps).filter
        (fun t => (raindropKey t.row).isNone) =
      (collectionStream oracle fps rts gps m).filter
        (fun t => (raindropKey t.row).isNone) := by
  unfold fetchAllRaindrops
  rw [fetchAllGo_eq_dedup]
  exact dedupList_filter_none _ []

/-- C6: when an earlier and a later collection both export a bookmark with
the same (truthy) identifier, the merged output holds exactly one record
with that identifier: the first-encountered row, tagged with the metadata
of the first collection whose export contains it; the later duplicate is
dropped without aborting the run. -/
theorem dedup_first_wins (oracle : Nat → FetchOutcome)
    (fps rts gps : List (Nat × String)) (l₁ l₂ l₃ : CollMap)
    (c₁ c₂ : Nat) (n₁ n₂ : CollNode) (s : String)
    (R₁ R₂ A B : List Row) (r₁ r₂ : Row)
    (ho₁ : oracle c₁ = .body R₁) (_ho₂ : oracle c₂ = .body R₂)
    (hR₁ : R₁ = A ++ r₁ :: B) (hA : ∀ a ∈ A, ¬ raindropKey a = some s)
    (hr₁ : raindropKey r₁ = some s)
    (_hr₂ : r₂ ∈ R₂) (_hkey₂ : raindropKey r₂ = some s)
    (hl₁ : ∀ t ∈ collectionStream oracle fps rts gps l₁,
      ¬ raindropKey t.row = some s) :
    (fetchAllRaindrops oracle (l₁ ++ (c₁, n₁) :: (l₂ ++ (c₂, n₂) :: l₃))
        fps rts gps).filter (fun t => raindropKey t.row == some s) =
      [tagRow c₁ n₁.title (jsGet fps c₁) (jsGet rts c₁) ((jsGet gps c₁).getD "") r₁] := by
  have hstream : collectionStream oracle fps rts gps
      (l₁ ++ (c₁, n₁) :: (l₂ ++ (c₂, n₂) :: l₃)) =
      collectionStream oracle fps rts gps l₁ ++
        (R₁.map (tagRow c₁ n₁.title (jsGet fps c₁) (jsGet rts c₁)
          ((jsGet gps c₁).getD "")) ++
          collectionStream oracle fps rts gps (l₂ ++ (c₂, n₂) :: l₃)) := by
    rw [collectionStream_append]
    have hc : collectionStream oracle fps rts gps ((c₁, n₁) :: (l₂ ++ (c₂, n₂) :: l₃)) =
        R₁.map (tagRow c₁ n₁.title (jsGet fps c₁) (jsGet rts c₁)
          ((jsGet gps c₁).getD "")) ++
          collectionStream oracle fps rts gps (l₂ ++ (c₂, n₂) :: l₃) := by
      simp [collectionStream, fetchCollectionRaindrops, ho₁]
    rw [hc]
  unfold fetchAllRaindrops
  rw [fetchAllGo_eq_dedup, dedupList_filter_key, if_neg (List.not_mem_nil s)]
  rw [hstream, List.filter_append, List.filter_append]
  have hfl₁ : (collectionStream oracle fps rts gps l₁).filter
      (fun t => raindropKey t.row == some s) = [] := by
    rw [List.filter_eq_nil_iff]
    intro t ht
    simpa using hl₁ t ht
  rw [hfl₁]
  subst hR₁
  rw [List.map_append, List.filter_append, List.map_cons, List.filter_cons]
  have hfA : (A.map (tagRow c₁ n₁.title (jsGet fps c₁) (jsGet rts c₁)
      ((jsGet gps c₁).getD ""))).filter (fun t => raindropKey t.row == some s) = [] := by
    rw [List.filter_eq_nil_iff]
    intro t ht
    obtain ⟨a, ha, rfl⟩ := List.mem_map.mp ht
    simpa [tagRow] using hA a ha
  rw [hfA]
  have hhead : (raindropKey (tagRow c₁ n₁.title (jsGet fps c₁) (jsGet rts c₁)
      ((jsGet gps c₁).getD "") r₁).row == some s) = true := by
    simp [tagRow, hr₁]
  rw [hhead]
  simp

/-- C6 witness: collections 1 and 2 both export a row with id `x`; the
output keeps exactly the first row, tagged with collection 1's metadata. -/
theorem dedup_first_wins_witness :
    dupOracle 1 = .body [rowX] ∧ dupOracle 2 = .body [rowXdup] ∧
    raindropKey rowX = some "x" ∧ raindropKey rowXdup = some "x" ∧
    (fetchAllRaindrops dupOracle aggMap aggPaths aggPaths []).filter
        (fun t => raindropKey t.row == some "x") =
      [tagRow 1 "A" (jsGet aggPaths 1) (jsGet aggPaths 1) ((jsGet ([] : List (Nat × String)) 1).getD "") rowX] := by
  refine ⟨rfl, rfl, rfl, rfl, ?_⟩
  exact dedup_first_wins dupOracle aggPaths aggPaths [] [] [] [] 1 2
    ⟨1, "A", none⟩ ⟨2, "B", none⟩ "x" [rowX] [rowXdup] [] [] rowX rowXdup
    rfl rfl rfl (by intro a ha; cases ha) rfl (by simp) rfl
    (by intro t ht; cases ht)

end Raindrop
